import Mathlib

/-!
Shallow embedding of the listmonk-messenger provider adapters
(`messenger/ses.go` — email adapter, and the pinpoint SMS adapter file)
together with the message data model they consume.

Go `[]byte` values are modelled as `String` (an abstract byte sequence);
Go `error` values as `GoError := String` (the error message);
Go maps (`textproto.MIMEHeader`, `map[string]interface{}`,
pinpoint address maps) as association lists.
External collaborators (the smtppool MIME builder `email.Bytes()`, the
AWS SES / Pinpoint clients, `encoding/json` unmarshalling and the STS
credential check) are passed in as function parameters, and the transport
calls an adapter issues are returned as an explicit trace, so that
"no transport call is performed" is a statement about that trace.
-/

/-- Go `error` values, identified by their message. -/
abbrev GoError := String

/-- MIME-style header fields (`textproto.MIMEHeader`), an ordered map from
field name to list of values. -/
abbrev MIMEHeader := List (String × List String)

/-- A dynamically typed attribute value, as stored in
`Subscriber.Attribs` (`map[string]interface{}` in Go). -/
inductive Attrib where
  | str : String → Attrib
  | num : Int → Attrib
  | boolean : Bool → Attrib
  | null : Attrib
deriving DecidableEq, Repr

/-- Modelled from the spec: the `Attachment` record of the messenger
package (its Go declaration is outside `src/`): `Name`, `Header`
(MIME-style header fields), `Content` (byte sequence). -/
structure Attachment where
  Name : String
  Header : MIMEHeader
  Content : String
deriving DecidableEq, Repr

/-- Modelled from the spec: the `Subscriber` record — an `Email` and an
open-ended `Attribs` mapping from attribute name to dynamically typed
value. -/
structure Subscriber where
  Email : String
  Attribs : List (String × Attrib)
deriving DecidableEq, Repr

/-- Modelled from the spec: the optional `Campaign` reference, carrying a
`FromEmail` override consulted by the email adapter. -/
structure Campaign where
  FromEmail : String
deriving DecidableEq, Repr

/-- Modelled from the spec: the canonical `Message` record of the
messenger package, with exactly the fields the two adapters read. -/
structure Message where
  From : String
  Subject : String
  ContentType : String
  Body : String
  Headers : MIMEHeader
  Attachments : Option (List Attachment)
  Subscriber : Subscriber
  Campaign : Option Campaign
deriving DecidableEq, Repr

/-! ## Email adapter (`messenger/ses.go`) -/

def ContentTypeHTML : String := "html"

def ContentTypePlain : String := "plain"

/-- `sesCfg`, parsed from the JSON configuration blob. -/
structure sesCfg where
  AccessKey : String
  SecretKey : String
  Region : String
  Log : Bool
deriving DecidableEq, Repr

/-- The email adapter value (`sesMessenger`); the SES client and the
logger are external collaborators and are passed to `Push` separately. -/
structure sesMessenger where
  cfg : sesCfg
deriving DecidableEq, Repr

def sesMessenger.Name (_ : sesMessenger) : String := "ses"

def sesMessenger.Flush (_ : sesMessenger) : Option GoError := none

def sesMessenger.Close (_ : sesMessenger) : Option GoError := none

/-- `smtppool.Attachment`: filename, header fields, content bytes. -/
structure SmtpAttachment where
  Filename : String
  Header : MIMEHeader
  Content : String
deriving DecidableEq, Repr

/-- `smtppool.Email`, the envelope built by `Push`. `Text` and `HTML`
start out as Go zero values (nil byte slices, modelled as `""`). -/
structure Email where
  From : String
  To : List String
  Subject : String
  Sender : String
  Headers : MIMEHeader
  Attachments : List SmtpAttachment
  Text : String
  HTML : String
deriving DecidableEq, Repr

/-- Lines 42–54 of `ses.go` at value level: convert one `Attachment` to a
`smtppool.Attachment`, the `make`/`copy` pair producing a fresh buffer
holding the same bytes (the aliasing content of that copy is proved
separately on the heap model below). -/
def convertAttachment (f : Attachment) : SmtpAttachment :=
  { Filename := f.Name, Header := f.Header, Content := f.Content }

/-- The `files` slice of `Push`: `nil` when `msg.Attachments` is nil,
otherwise the converted attachments in order. -/
def buildFiles (msg : Message) : List SmtpAttachment :=
  match msg.Attachments with
  | none => []
  | some fs => fs.map convertAttachment

/-- Lines 56–59 of `ses.go`: the resolved `fromEmail` — the Campaign's
`FromEmail` when the message references a campaign, else `msg.From`. -/
def resolveFrom (msg : Message) : String :=
  match msg.Campaign with
  | some c => c.FromEmail
  | none => msg.From

/-- Lines 61–75 of `ses.go`: build the `smtppool.Email` envelope, then
select the content slot: `Text` for `ContentType == plain`, `HTML`
otherwise (the `default` branch of the switch). -/
def buildEmail (msg : Message) : Email :=
  let email : Email :=
    { From := resolveFrom msg
      To := [msg.Subscriber.Email]
      Subject := msg.Subject
      Sender := msg.From
      Headers := msg.Headers
      Attachments := buildFiles msg
      Text := ""
      HTML := "" }
  if msg.ContentType = ContentTypePlain then
    { email with Text := msg.Body }
  else
    { email with HTML := msg.Body }

/-- `ses.SendRawEmailInput` as filled in by `Push`: `Source` is the
envelope's `From`, `Destinations` the single subscriber email, `Data`
the raw MIME bytes. -/
structure SendRawEmailInput where
  Source : String
  Destinations : List String
  Data : String
deriving DecidableEq, Repr

/-- `ses.SendRawEmailOutput`: the `MessageId` field is a pointer in the
AWS SDK, hence `Option`. -/
structure SendRawEmailOutput where
  MessageId : Option String
deriving DecidableEq, Repr

/-- The pair a Go `Push` evaluates to: a normal return of
`(identifier, error)` — `error` is `none` for Go `nil` — or a runtime
panic (e.g. a nil-pointer dereference). -/
inductive PushOutcome where
  | ret (id : String) (err : Option GoError)
  | panic
deriving DecidableEq, Repr

/-- One structured log line of the email adapter: recipient email and the
full provider response. -/
structure SesLogLine where
  email : String
  results : SendRawEmailOutput
deriving DecidableEq, Repr

/-- Lines 40–100 of `ses.go`: `sesMessenger.Push`.
`bytesFn` is the external `email.Bytes()` MIME builder and `sendFn` the
external `client.SendRawEmail`. Besides the outcome, the trace of
`SendRawEmail` transport calls and of emitted log lines is returned. -/
def sesMessenger.Push (s : sesMessenger)
    (bytesFn : Email → Except GoError String)
    (sendFn : SendRawEmailInput → Except GoError SendRawEmailOutput)
    (msg : Message) :
    PushOutcome × List SendRawEmailInput × List SesLogLine :=
  let email := buildEmail msg
  match bytesFn email with
  | .error e => (.ret "" (some e), [], [])
  | .ok emailB =>
    let input : SendRawEmailInput :=
      { Source := email.From
        Destinations := [msg.Subscriber.Email]
        Data := emailB }
    match sendFn input with
    | .error e => (.ret "" (some e), [input], [])
    | .ok out =>
      let logs :=
        if s.cfg.Log then [{ email := msg.Subscriber.Email, results := out }] else []
      match out.MessageId with
      | none => (.panic, [input], logs)
      | some mid => (.ret mid none, [input], logs)

/-! ## SMS adapter (the pinpoint adapter source file) -/

/-- The package-level `channelType` variable, fixed to `"SMS"`. -/
def channelType : String := "SMS"

/-- `pinpointCfg`, parsed from the JSON configuration blob. -/
structure pinpointCfg where
  AppID : String
  AccessKey : String
  SecretKey : String
  Region : String
  MessageType : String
  SenderID : String
  Log : Bool
deriving DecidableEq, Repr

/-- The SMS adapter value (`pinpointMessenger`); the Pinpoint client and
the logger are external collaborators passed to `Push` separately. -/
structure pinpointMessenger where
  cfg : pinpointCfg
deriving DecidableEq, Repr

def pinpointMessenger.Name (_ : pinpointMessenger) : String := "pinpoint"

def pinpointMessenger.Flush (_ : pinpointMessenger) : Option GoError := none

def pinpointMessenger.Close (_ : pinpointMessenger) : Option GoError := none

/-- `pinpoint.AddressConfiguration`. -/
structure AddressConfiguration where
  ChannelType : String
deriving DecidableEq, Repr

/-- `pinpoint.SMSMessage`: body, message type and sender id. -/
structure SMSMessage where
  Body : String
  MessageType : String
  SenderId : String
deriving DecidableEq, Repr

/-- `pinpoint.SendMessagesInput` as filled in by `Push`: application id,
the address map (a single phone bound to channel `"SMS"`) and the direct
message configuration. -/
structure SendMessagesInput where
  ApplicationId : String
  Addresses : List (String × AddressConfiguration)
  SMSMessage : SMSMessage
deriving DecidableEq, Repr

/-- `pinpoint.SendMessagesOutput`: the per-recipient result entries
(`out.MessageResponse.Result`), each result modelled as an opaque
description string. -/
structure SendMessagesOutput where
  Result : List (String × String)
deriving DecidableEq, Repr

/-- One structured log line of the SMS adapter: phone and the
per-recipient result entry. -/
structure PinpointLogLine where
  phone : String
  result : String
deriving DecidableEq, Repr

/-- Line 41 of the SMS adapter: the type assertion
`msg.Subscriber.Attribs["phone"].(string)` — `some` exactly when the key
is present and bound to a string value. -/
def attribAsString (v : Option Attrib) : Option String :=
  match v with
  | some (.str s) => some s
  | _ => none

/-- The `SendMessagesInput` payload built by the SMS `Push` once a phone
string has been extracted. -/
def pinpointPayload (p : pinpointMessenger) (msg : Message) (phone : String) :
    SendMessagesInput :=
  { ApplicationId := p.cfg.AppID
    Addresses := [(phone, { ChannelType := channelType })]
    SMSMessage :=
      { Body := msg.Body
        MessageType := p.cfg.MessageType
        SenderId := p.cfg.SenderID } }

/-- Lines 40–77 of the SMS adapter: `pinpointMessenger.Push`. `sendFn` is
the external `client.SendMessages`. Besides the outcome, the trace of
transport calls and of emitted log lines is returned. -/
def pinpointMessenger.Push (p : pinpointMessenger)
    (sendFn : SendMessagesInput → Except GoError SendMessagesOutput)
    (msg : Message) :
    PushOutcome × List SendMessagesInput × List PinpointLogLine :=
  match attribAsString (msg.Subscriber.Attribs.lookup "phone") with
  | none => (.ret "" (some "could not find subscriber phone"), [], [])
  | some phone =>
    let payload := pinpointPayload p msg phone
    match sendFn payload with
    | .error e => (.ret "" (some e), [payload], [])
    | .ok out =>
      let logs :=
        if p.cfg.Log then
          out.Result.map (fun r => { phone := r.1, result := r.2 : PinpointLogLine })
        else []
      (.ret "" none, [payload], logs)

/-! ## Constructors -/

/-- The `aws.Config` assembled by both constructors: retry count 3,
optional static credentials, optional region override. -/
structure AwsConfig where
  MaxRetries : Nat
  Credentials : Option (String × String)
  Region : Option String
deriving DecidableEq, Repr

/-- Lines 98–106 of the SMS adapter (identical in `ses.go`): build the
`aws.Config` from the parsed provider config. -/
def buildAwsConfig (accessKey secretKey region : String) : AwsConfig :=
  { MaxRetries := 3
    Credentials :=
      if accessKey ≠ "" ∧ secretKey ≠ "" then some (accessKey, secretKey) else none
    Region := if region ≠ "" then some region else none }

/-- Lines 88–120 of the SMS adapter: `NewPinpoint`. `unmarshal` is the
external `json.Unmarshal` into `pinpointCfg` (a missing field parses to
the Go zero value `""`); `checkCreds` is `checkCredentials` on the
session built from the config (an external STS call). The `List
AwsConfig` trace records each session construction + credential check
performed, so an empty trace means neither happened. -/
def NewPinpoint (unmarshal : String → Except GoError pinpointCfg)
    (checkCreds : AwsConfig → Option GoError)
    (cfg : String) :
    Except GoError pinpointMessenger × List AwsConfig :=
  match unmarshal cfg with
  | .error e => (.error e, [])
  | .ok c =>
    if c.AppID = "" then (.error "invalid app_id", [])
    else
      let config := buildAwsConfig c.AccessKey c.SecretKey c.Region
      match checkCreds config with
      | some e => (.error e, [config])
      | none => (.ok { cfg := c }, [config])

/-- Lines 120–148 of `ses.go`: `NewAWSSES`, mirroring `NewPinpoint`
without the app-id check. -/
def NewAWSSES (unmarshal : String → Except GoError sesCfg)
    (checkCreds : AwsConfig → Option GoError)
    (cfg : String) :
    Except GoError sesMessenger × List AwsConfig :=
  match unmarshal cfg with
  | .error e => (.error e, [])
  | .ok c =>
    let config := buildAwsConfig c.AccessKey c.SecretKey c.Region
    match checkCreds config with
    | some e => (.error e, [config])
    | none => (.ok { cfg := c }, [config])

/-! ## Heap model of the attachment conversion loop

The value-level `buildFiles` above cannot express aliasing, so the
conversion loop (lines 42–54 of `ses.go`) is embedded a second time over
an explicit store of byte buffers: a Go `[]byte` is a reference (an index)
into the store, `make` allocates a fresh buffer at the end of the store,
and `copy` fills it with the source bytes. -/

/-- The store of byte buffers; a Go `[]byte` value is an index into it. -/
abbrev Store := List String

/-- Read the buffer a reference points at. -/
def readBuf (st : Store) (i : Nat) : String := st.getD i ""

/-- Overwrite a buffer in place (what a caller mutating its own `[]byte`
does); references are unchanged, only the store cell content changes. -/
def writeBuf (st : Store) (i : Nat) (v : String) : Store := st.set i v

/-- An `Attachment` whose `Content` is a reference into the store. -/
structure HeapAttachment where
  Name : String
  Header : MIMEHeader
  Content : Nat
deriving DecidableEq, Repr

/-- A `smtppool.Attachment` whose `Content` is a reference into the
store. -/
structure HeapSmtpAttachment where
  Filename : String
  Header : MIMEHeader
  Content : Nat
deriving DecidableEq, Repr

/-- Lines 42–54 of `ses.go` on the heap model: for each attachment `f`,
`make([]byte, len(f.Content))` allocates a fresh buffer (at index
`st.length`, past every existing buffer) and `copy(a.Content, f.Content)`
fills it with the bytes `f.Content` currently holds; the resulting
`smtppool.Attachment` carries the fresh reference. -/
def copyAttachments : Store → List HeapAttachment → Store × List HeapSmtpAttachment
  | st, [] => (st, [])
  | st, f :: rest =>
    let a : HeapSmtpAttachment :=
      { Filename := f.Name, Header := f.Header, Content := st.length }
    let st1 := st ++ [readBuf st f.Content]
    let r := copyAttachments st1 rest
    (r.1, a :: r.2)

theorem readBuf_append (st ext : Store) (i : Nat) (h : i < st.length) :
    readBuf (st ++ ext) i = readBuf st i := by
  unfold readBuf
  induction st generalizing i with
  | nil => exact absurd h (Nat.not_lt_zero i)
  | cons b bs ih =>
    cases i with
    | zero => rfl
    | succ j => exact ih j (Nat.lt_of_succ_lt_succ h)

theorem readBuf_snoc_self (st : Store) (x : String) :
    readBuf (st ++ [x]) st.length = x := by
  unfold readBuf
  induction st with
  | nil => rfl
  | cons b bs ih => exact ih

theorem readBuf_set_ne (st : Store) (i j : Nat) (v : String) (h : i ≠ j) :
    readBuf (writeBuf st j v) i = readBuf st i := by
  unfold readBuf writeBuf
  induction st generalizing i j with
  | nil => rfl
  | cons b bs ih =>
    cases j with
    | zero =>
      cases i with
      | zero => exact absurd rfl h
      | succ k => rfl
    | succ j2 =>
      cases i with
      | zero => rfl
      | succ k => exact ih k j2 (fun hk => h (congrArg Nat.succ hk))

theorem copyAttachments_store_extends (fs : List HeapAttachment) :
    ∀ st : Store, ∃ ext, (copyAttachments st fs).1 = st ++ ext := by
  induction fs with
  | nil => exact fun st => ⟨[], (List.append_nil st).symm⟩
  | cons f rest ih =>
    intro st
    obtain ⟨ext, hext⟩ := ih (st ++ [readBuf st f.Content])
    refine ⟨[readBuf st f.Content] ++ ext, ?_⟩
    simpa [copyAttachments, List.append_assoc] using hext

theorem forall2_and_left {α β : Type} {P : α → Prop} {R : α → β → Prop} :
    ∀ {l1 : List α} {l2 : List β}, List.Forall₂ R l1 l2 → (∀ x ∈ l1, P x) →
    List.Forall₂ (fun x y => P x ∧ R x y) l1 l2 := by
  intro l1 l2 h hp
  induction h with
  | nil => exact .nil
  | cons hr _ ih =>
    exact .cons ⟨hp _ (List.mem_cons_self _ _), hr⟩
      (ih fun x hx => hp x (List.mem_cons_of_mem _ hx))

theorem copyAttachments_spec (fs : List HeapAttachment) :
    ∀ st : Store, (∀ f ∈ fs, f.Content < st.length) →
    List.Forall₂ (fun (f : HeapAttachment) (a : HeapSmtpAttachment) =>
        a.Filename = f.Name ∧ a.Header = f.Header ∧
        st.length ≤ a.Content ∧
        readBuf (copyAttachments st fs).1 a.Content = readBuf st f.Content)
      fs (copyAttachments st fs).2 := by
  induction fs with
  | nil => intro st _; exact List.Forall₂.nil
  | cons f rest ih =>
    intro st hin
    have hf : f.Content < st.length := hin f (List.mem_cons_self f rest)
    set st1 : Store := st ++ [readBuf st f.Content] with hst1
    have hlen1 : st1.length = st.length + 1 := by
      simp [hst1]
    have hin1 : ∀ g ∈ rest, g.Content < st1.length := by
      intro g hg
      have := hin g (List.mem_cons_of_mem f hg)
      omega
    have htail := ih st1 hin1
    obtain ⟨ext, hext⟩ := copyAttachments_store_extends rest st1
    have hres1 : (copyAttachments st (f :: rest)).1 = (copyAttachments st1 rest).1 := by
      simp [copyAttachments, hst1]
    have hres2 : (copyAttachments st (f :: rest)).2 =
        ({ Filename := f.Name, Header := f.Header, Content := st.length } :
          HeapSmtpAttachment) :: (copyAttachments st1 rest).2 := by
      simp [copyAttachments, hst1]
    rw [hres1, hres2]
    refine List.Forall₂.cons ?_ ?_
    · refine ⟨rfl, rfl, Nat.le_refl _, ?_⟩
      rw [hext]
      have hlt : st.length < st1.length := by omega
      calc readBuf (st1 ++ ext) st.length
          = readBuf st1 st.length := readBuf_append st1 ext st.length hlt
        _ = readBuf st f.Content := readBuf_snoc_self st (readBuf st f.Content)
    · have htail2 := forall2_and_left htail
        (fun g hg => hin g (List.mem_cons_of_mem f hg))
      refine htail2.imp ?_
      intro g a hga
      obtain ⟨hg2, h1, h2, h3, h4⟩ := hga
      exact ⟨h1, h2, by omega, by
        rw [h4]
        exact readBuf_append st [readBuf st f.Content] g.Content hg2⟩

/-! ## Claim theorems -/

/-- C1: for every Message pushed through the email adapter, if
`ContentType = "plain"` the built envelope's text body is `Message.Body`
and its HTML body is empty; for any other `ContentType` (including
`"html"` and unset) the HTML body is `Message.Body` and the text body is
empty; when `Body` is non-empty exactly one of the two sides is
non-empty. -/
theorem ses_content_selection (msg : Message) :
    (msg.ContentType = ContentTypePlain →
      (buildEmail msg).Text = msg.Body ∧ (buildEmail msg).HTML = "") ∧
    (msg.ContentType ≠ ContentTypePlain →
      (buildEmail msg).HTML = msg.Body ∧ (buildEmail msg).Text = "") ∧
    (msg.Body ≠ "" →
      ((buildEmail msg).Text ≠ "" ∧ (buildEmail msg).HTML = "") ∨
      ((buildEmail msg).HTML ≠ "" ∧ (buildEmail msg).Text = "")) := by
  by_cases h : msg.ContentType = ContentTypePlain <;>
    simp [buildEmail, h]

/-- Witness for C1 at a concrete plain-text message. -/
theorem ses_content_selection_witness :
    (buildEmail
      { From := "x@y.com", Subject := "s", ContentType := "plain",
        Body := "hi", Headers := [], Attachments := none,
        Subscriber := { Email := "a@b.com", Attribs := [] },
        Campaign := none }).Text = "hi" :=
  ((ses_content_selection _).1 rfl).1

/-- C3: the resolved From address of the built envelope is the Campaign's
`FromEmail` whenever the Message references a Campaign, and
`Message.From` otherwise; the envelope's `Sender` is always
`Message.From`. -/
theorem ses_from_resolution (msg : Message) :
    (∀ c, msg.Campaign = some c → (buildEmail msg).From = c.FromEmail) ∧
    (msg.Campaign = none → (buildEmail msg).From = msg.From) ∧
    (buildEmail msg).Sender = msg.From := by
  have hFrom : (buildEmail msg).From = resolveFrom msg := by
    by_cases h : msg.ContentType = ContentTypePlain <;> simp [buildEmail, h]
  have hSender : (buildEmail msg).Sender = msg.From := by
    by_cases h : msg.ContentType = ContentTypePlain <;> simp [buildEmail, h]
  refine ⟨?_, ?_, hSender⟩
  · intro c hc
    rw [hFrom]
    simp [resolveFrom, hc]
  · intro hc
    rw [hFrom]
    simp [resolveFrom, hc]

/-- Witness for C3 at a concrete message carrying a campaign. -/
theorem ses_from_resolution_witness :
    (buildEmail
      { From := "x@y.com", Subject := "s", ContentType := "html",
        Body := "b", Headers := [], Attachments := none,
        Subscriber := { Email := "a@b.com", Attribs := [] },
        Campaign := some { FromEmail := "c@d.com" } }).From = "c@d.com" :=
  (ses_from_resolution _).1 { FromEmail := "c@d.com" } rfl

/-- C4: when the Subscriber's attribute mapping has no `"phone"` key bound
to a string value, SMS `Push` returns the empty identifier together with
the missing-attribute error, performs no transport call and emits no
log line. -/
theorem pinpoint_missing_phone (p : pinpointMessenger)
    (sendFn : SendMessagesInput → Except GoError SendMessagesOutput)
    (msg : Message)
    (h : ∀ s, msg.Subscriber.Attribs.lookup "phone" ≠ some (Attrib.str s)) :
    p.Push sendFn msg =
      (.ret "" (some "could not find subscriber phone"), [], []) := by
  have hnone : attribAsString (msg.Subscriber.Attribs.lookup "phone") = none := by
    cases hv : msg.Subscriber.Attribs.lookup "phone" with
    | none => rfl
    | some v =>
      cases v with
      | str s => exact absurd hv (h s)
      | num n => rfl
      | boolean b => rfl
      | null => rfl
  simp [pinpointMessenger.Push, hnone]

/-- Witness for C4: a subscriber with an empty attribute map. -/
theorem pinpoint_missing_phone_witness :
    pinpointMessenger.Push
      { cfg := { AppID := "A1", AccessKey := "", SecretKey := "",
                 Region := "", MessageType := "", SenderID := "",
                 Log := false } }
      (fun _ => .ok { Result := [] })
      { From := "", Subject := "", ContentType := "", Body := "hi",
        Headers := [], Attachments := none,
        Subscriber := { Email := "a@b.com", Attribs := [] },
        Campaign := none } =
      (.ret "" (some "could not find subscriber phone"), [], []) :=
  pinpoint_missing_phone _ _ _
    (fun s hcontra => by simp [List.lookup] at hcontra)

/-- C5: when serializing the built envelope to raw MIME bytes fails, the
email `Push` returns that serialization error unmodified together with
an empty identifier, and the send-raw-email transport call is never
invoked. -/
theorem ses_serialization_error (s : sesMessenger)
    (bytesFn : Email → Except GoError String)
    (sendFn : SendRawEmailInput → Except GoError SendRawEmailOutput)
    (msg : Message) (e : GoError)
    (h : bytesFn (buildEmail msg) = .error e) :
    s.Push bytesFn sendFn msg = (.ret "" (some e), [], []) := by
  simp [sesMessenger.Push, h]

/-- Witness for C5: a MIME builder that always fails. -/
theorem ses_serialization_error_witness :
    sesMessenger.Push
      { cfg := { AccessKey := "", SecretKey := "", Region := "",
                 Log := false } }
      (fun _ => .error "mime failure")
      (fun _ => .ok { MessageId := some "m1" })
      { From := "x@y.com", Subject := "s", ContentType := "html",
        Body := "b", Headers := [], Attachments := none,
        Subscriber := { Email := "a@b.com", Attribs := [] },
        Campaign := none } =
      (.ret "" (some "mime failure"), [], []) :=
  ses_serialization_error _ _ _ _ "mime failure" rfl

/-- C2: on the heap model, for every attachment list whose content
references point at caller-owned buffers, the converted
`smtppool.Attachment` records pair up with the sources: filename matches,
header fields match, the copied content bytes read back byte-identical to
the source bytes at the moment of the call, the fresh reference aliases
no caller reference, and overwriting any caller-owned buffer after the
conversion leaves the copied bytes equal to the original source bytes. -/
theorem ses_attachments_deep_copy (st : Store) (fs : List HeapAttachment)
    (hin : ∀ f ∈ fs, f.Content < st.length) :
    List.Forall₂ (fun (f : HeapAttachment) (a : HeapSmtpAttachment) =>
        a.Filename = f.Name ∧ a.Header = f.Header ∧
        readBuf (copyAttachments st fs).1 a.Content = readBuf st f.Content ∧
        (∀ g ∈ fs, a.Content ≠ g.Content) ∧
        (∀ j v, j < st.length →
          readBuf (writeBuf (copyAttachments st fs).1 j v) a.Content =
            readBuf st f.Content))
      fs (copyAttachments st fs).2 := by
  have h := copyAttachments_spec fs st hin
  refine h.imp ?_
  intro f a hfa
  obtain ⟨h1, h2, h3, h4⟩ := hfa
  refine ⟨h1, h2, h4, ?_, ?_⟩
  · intro g hg
    have := hin g hg
    omega
  · intro j v hj
    rw [readBuf_set_ne _ _ _ _ (by omega : a.Content ≠ j), h4]

/-- Witness for C2: one attachment over a one-buffer store. -/
theorem ses_attachments_deep_copy_witness :
    (∀ f ∈ [({ Name := "file", Header := [], Content := 0 } : HeapAttachment)],
        f.Content < (["ab"] : Store).length) ∧
    List.Forall₂ (fun (f : HeapAttachment) (a : HeapSmtpAttachment) =>
        a.Filename = f.Name ∧ a.Header = f.Header ∧
        readBuf (copyAttachments ["ab"]
            [{ Name := "file", Header := [], Content := 0 }]).1 a.Content =
          readBuf ["ab"] f.Content ∧
        (∀ g ∈ [({ Name := "file", Header := [], Content := 0 } :
            HeapAttachment)], a.Content ≠ g.Content) ∧
        (∀ j v, j < (["ab"] : Store).length →
          readBuf (writeBuf (copyAttachments ["ab"]
              [{ Name := "file", Header := [], Content := 0 }]).1 j v)
              a.Content =
            readBuf ["ab"] f.Content))
      [{ Name := "file", Header := [], Content := 0 }]
      (copyAttachments ["ab"]
        [{ Name := "file", Header := [], Content := 0 }]).2 :=
  ⟨by decide,
   ses_attachments_deep_copy ["ab"]
     [{ Name := "file", Header := [], Content := 0 }] (by decide)⟩

/-- C6: whenever the SMS `Push` reaches the transport and the transport
call succeeds, `Push` returns the empty identifier and no error,
whatever per-recipient results the transport reports. -/
theorem pinpoint_success_empty_id (p : pinpointMessenger)
    (sendFn : SendMessagesInput → Except GoError SendMessagesOutput)
    (msg : Message) (phone : String) (out : SendMessagesOutput)
    (hp : attribAsString (msg.Subscriber.Attribs.lookup "phone") = some phone)
    (hs : sendFn (pinpointPayload p msg phone) = .ok out) :
    (p.Push sendFn msg).1 = .ret "" none := by
  simp [pinpointMessenger.Push, hp, hs]

/-- Witness for C6: a transport reporting a non-empty per-recipient
result set; the identifier is still empty. -/
theorem pinpoint_success_empty_id_witness :
    (pinpointMessenger.Push
      { cfg := { AppID := "A1", AccessKey := "", SecretKey := "",
                 Region := "", MessageType := "TRANSACTIONAL",
                 SenderID := "S", Log := false } }
      (fun _ => .ok { Result := [("+15550001111", "DELIVERED id=abc")] })
      { From := "", Subject := "", ContentType := "", Body := "hi",
        Headers := [], Attachments := none,
        Subscriber := { Email := "a@b.com",
                        Attribs := [("phone", .str "+15550001111")] },
        Campaign := none }).1 = .ret "" none :=
  pinpoint_success_empty_id _ _ _ "+15550001111"
    { Result := [("+15550001111", "DELIVERED id=abc")] } rfl rfl

/-- C7: whenever the email `Push` reaches the transport and the
send-raw-email call succeeds with a present message id, `Push` returns
that provider-assigned identifier and no error. -/
theorem ses_success_message_id (s : sesMessenger)
    (bytesFn : Email → Except GoError String)
    (sendFn : SendRawEmailInput → Except GoError SendRawEmailOutput)
    (msg : Message) (raw : String) (out : SendRawEmailOutput) (mid : String)
    (hb : bytesFn (buildEmail msg) = .ok raw)
    (hs : sendFn { Source := (buildEmail msg).From,
                   Destinations := [msg.Subscriber.Email],
                   Data := raw } = .ok out)
    (hm : out.MessageId = some mid) :
    (s.Push bytesFn sendFn msg).1 = .ret mid none := by
  simp [sesMessenger.Push, hb, hs, hm]

/-- Witness for C7: a transport assigning message id `"m-42"`. -/
theorem ses_success_message_id_witness :
    (sesMessenger.Push
      { cfg := { AccessKey := "", SecretKey := "", Region := "",
                 Log := false } }
      (fun _ => .ok "raw-bytes")
      (fun _ => .ok { MessageId := some "m-42" })
      { From := "x@y.com", Subject := "s", ContentType := "html",
        Body := "<p>hi</p>", Headers := [], Attachments := none,
        Subscriber := { Email := "a@b.com", Attribs := [] },
        Campaign := none }).1 = .ret "m-42" none :=
  ses_success_message_id _ _ _ _ "raw-bytes"
    { MessageId := some "m-42" } "m-42" rfl rfl rfl

/-- C8: for every configuration blob that parses to a config whose
`AppID` is empty (missing or explicitly empty), `NewPinpoint` fails with
the `invalid app_id` error, returns no adapter, and the trace of session
constructions / credential checks is empty. -/
theorem pinpoint_config_missing_app_id
    (unmarshal : String → Except GoError pinpointCfg)
    (checkCreds : AwsConfig → Option GoError)
    (cfg : String) (c : pinpointCfg)
    (hu : unmarshal cfg = .ok c) (ha : c.AppID = "") :
    NewPinpoint unmarshal checkCreds cfg = (.error "invalid app_id", []) := by
  simp [NewPinpoint, hu, ha]

/-- Witness for C8: a blob parsing to a config with empty `app_id`. -/
theorem pinpoint_config_missing_app_id_witness :
    NewPinpoint
      (fun _ => .ok { AppID := "", AccessKey := "k", SecretKey := "s",
                      Region := "r", MessageType := "", SenderID := "",
                      Log := false })
      (fun _ => none)
      "{}" = (.error "invalid app_id", []) :=
  pinpoint_config_missing_app_id _ _ "{}"
    { AppID := "", AccessKey := "k", SecretKey := "s", Region := "r",
      MessageType := "", SenderID := "", Log := false } rfl rfl

/-- C9: after a successful send-raw-email transport call whose response
carries a nil `MessageId` pointer, the email `Push` panics (nil-pointer
dereference of `out.MessageId`) instead of returning an error. -/
theorem ses_nil_message_id_panics (s : sesMessenger)
    (bytesFn : Email → Except GoError String)
    (sendFn : SendRawEmailInput → Except GoError SendRawEmailOutput)
    (msg : Message) (raw : String) (out : SendRawEmailOutput)
    (hb : bytesFn (buildEmail msg) = .ok raw)
    (hs : sendFn { Source := (buildEmail msg).From,
                   Destinations := [msg.Subscriber.Email],
                   Data := raw } = .ok out)
    (hm : out.MessageId = none) :
    (s.Push bytesFn sendFn msg).1 = .panic := by
  simp [sesMessenger.Push, hb, hs, hm]

/-- Witness for C9: a success response with no message id. -/
theorem ses_nil_message_id_panics_witness :
    (sesMessenger.Push
      { cfg := { AccessKey := "", SecretKey := "", Region := "",
                 Log := false } }
      (fun _ => .ok "raw-bytes")
      (fun _ => .ok { MessageId := none })
      { From := "x@y.com", Subject := "s", ContentType := "html",
        Body := "b", Headers := [], Attachments := none,
        Subscriber := { Email := "a@b.com", Attribs := [] },
        Campaign := none }).1 = .panic :=
  ses_nil_message_id_panics _ _ _ _ "raw-bytes"
    { MessageId := none } rfl rfl rfl

/-- C10: both adapters' `Name` is a fixed lowercase constant independent
of adapter state, and `Flush`/`Close` always return no error; all three
are pure functions of the adapter value, so repeated calls return the
same results and change no state. -/
theorem adapters_name_flush_close (p : pinpointMessenger) (s : sesMessenger) :
    p.Name = "pinpoint" ∧ s.Name = "ses" ∧
    p.Flush = none ∧ p.Close = none ∧ s.Flush = none ∧ s.Close = none :=
  ⟨rfl, rfl, rfl, rfl, rfl, rfl⟩
